import Mathlib

/-!
Verification development for the Smart Autonomous Taxi simulation.

The definitions below are a shallow embedding of the Python sources:
`src/agents/taxi.py`, `src/agents/passenger.py`, `src/agents/traffic_light.py`,
`src/utils/pathfinding.py` and `src/model/city_model.py`.  Python machine
integers are embedded as `Int`/`Nat` (grid coordinates never overflow),
floating-point rates and revenues as `ℚ` (all constants involved — 10.0, 2.0,
1.5, 1.0, 0.6, 0.9, 0.05, 0.20 — are exactly representable and the programs
only compare and add them, so the rational semantics agrees with the float
semantics on every reachable value), and the ambient randomness of
`random.choice`/`random.sample`/`random.random` as explicit oracle
parameters (an index stream or a sampled rational).  Stateful methods become
functions from the old state (plus an environment record standing for the
fields of the Mesa model that the method reads) to the new state.
-/

namespace TaxiSim

/-- Grid coordinates, the nodes of the road network (`(x, y)` tuples in the
Python code). -/
abbrev Pos := Int × Int

/-- Travel axis of a move or of a traffic light (`"horizontal"`/`"vertical"`
strings in the Python code). -/
inductive Axis where
  | horizontal
  | vertical
deriving DecidableEq, Repr

/-- State of a traffic light (`"green"`/`"red"` strings in the Python code). -/
inductive LightState where
  | green
  | red
deriving DecidableEq, Repr

/-- Passenger priority (`"regular"`/`"vip"`/`"emergency"` strings). -/
inductive Priority where
  | regular
  | vip
  | emergency
deriving DecidableEq, Repr

/-- Passenger lifecycle status (`"waiting"`/`"in_taxi"`/`"arrived"` strings). -/
inductive PStatus where
  | waiting
  | in_taxi
  | arrived
deriving DecidableEq, Repr

/-- Taxi type (`"economy"`/`"premium"`/`"luxury"` strings). -/
inductive TaxiType where
  | economy
  | premium
  | luxury
deriving DecidableEq, Repr

/-- Taxi lifecycle status (`"idle"`/`"picking_up"`/`"transporting"` strings). -/
inductive TStatus where
  | idle
  | picking_up
  | transporting
deriving DecidableEq, Repr

/-- `TrafficLight.__init__` state (src/agents/traffic_light.py, lines 13-21).
`min_green_time`, `max_green_time` and `min_red_time` are ordinary attributes
set by `__init__`; they are kept as fields so that theorems can pin them to
the values the constructor assigns (5, 15, 3). -/
structure TrafficLight where
  position : Pos
  axis : Axis
  state : LightState
  time_in_state : Nat
  min_green_time : Nat
  max_green_time : Nat
  min_red_time : Nat
deriving DecidableEq, Repr

/-- `TrafficLight.__init__`: starts green with `time_in_state = 0` and dwell
constants 5/15/3. -/
def TrafficLight.init (position : Pos) (axis : Axis) : TrafficLight :=
  { position := position, axis := axis, state := LightState.green,
    time_in_state := 0, min_green_time := 5, max_green_time := 15,
    min_red_time := 3 }

/-- `TrafficLight._opposite_direction` (traffic_light.py, lines 74-76). -/
def oppositeAxis : Axis → Axis
  | Axis.horizontal => Axis.vertical
  | Axis.vertical => Axis.horizontal

/-- `TrafficLight._switch_to_green` (traffic_light.py, lines 78-81). -/
def TrafficLight.switch_to_green (l : TrafficLight) : TrafficLight :=
  { l with state := LightState.green, time_in_state := 0 }

/-- `TrafficLight._switch_to_red` (traffic_light.py, lines 83-86). -/
def TrafficLight.switch_to_red (l : TrafficLight) : TrafficLight :=
  { l with state := LightState.red, time_in_state := 0 }

/-- `TrafficLight.is_green` (traffic_light.py, lines 88-90). -/
def TrafficLight.is_green (l : TrafficLight) : Bool :=
  l.state == LightState.green

/-- `TrafficLight.is_green_for_direction` (traffic_light.py, lines 92-98). -/
def TrafficLight.is_green_for_axis (l : TrafficLight) (a : Axis) : Bool :=
  if l.axis = a then l.state == LightState.green
  else l.state == LightState.red

/-- `TrafficLight.step` (traffic_light.py, lines 23-42).  The observed vehicle
counts returned by `self._count_traffic()` are passed in as the `density`
argument (the claim under verification quantifies over every observed
density).  The float comparison `count > other * 1.5` on integer counts is
rendered as `2 * count > 3 * other`, which agrees with it on all machine
integers small enough to be exact floats (counts here are at most 9). -/
def TrafficLight.tick (l : TrafficLight) (density : Axis → Nat) : TrafficLight :=
  let l := { l with time_in_state := l.time_in_state + 1 }
  match l.state with
  | LightState.green =>
      if l.min_green_time ≤ l.time_in_state then
        if density l.axis == 0 || l.max_green_time ≤ l.time_in_state then
          if 0 < density (oppositeAxis l.axis) then l.switch_to_red else l
        else l
      else l
  | LightState.red =>
      if l.min_red_time ≤ l.time_in_state then
        let other := density (oppositeAxis l.axis)
        if 2 * density l.axis > 3 * other || other == 0 then l.switch_to_green
        else l
      else l

/-- `Passenger._get_max_wait_time` (passenger.py, lines 24-31). -/
def get_max_wait_time : Priority → Nat
  | Priority.regular => 500
  | Priority.vip => 300
  | Priority.emergency => 100

/-- `Passenger.__init__` state (passenger.py, lines 14-22). -/
structure Passenger where
  uid : Nat
  position : Pos
  destination : Pos
  priority : Priority
  status : PStatus
  wait_time : Nat
  max_wait_time : Nat
deriving DecidableEq, Repr

/-- `Passenger.__init__`: waiting, zero wait, `max_wait_time` derived from the
priority. -/
def Passenger.init (uid : Nat) (position destination : Pos)
    (priority : Priority) : Passenger :=
  { uid := uid, position := position, destination := destination,
    priority := priority, status := PStatus.waiting, wait_time := 0,
    max_wait_time := get_max_wait_time priority }

/-- `Passenger.step` (passenger.py, lines 33-40).  The returned Bool is true
exactly when the passenger removes itself from the grid and the schedule
(expiry); the caller of the embedding drops such passengers. -/
def Passenger.tick (p : Passenger) : Passenger × Bool :=
  if p.status = PStatus.waiting then
    let p := { p with wait_time := p.wait_time + 1 }
    (p, p.max_wait_time < p.wait_time)
  else (p, false)

/-- A finite undirected graph presented by its node list and an adjacency
test; this embeds the `networkx` graph object held in
`model.road_network`. -/
structure Graph where
  nodes : List Pos
  adj : Pos → Pos → Bool

/-- The adjacency relation only ever points into the node list (true of every
`networkx` graph, and of `create_road_network` below). -/
def Graph.Closed (g : Graph) : Prop :=
  ∀ u v : Pos, g.adj u v = true → v ∈ g.nodes

/-- Neighbours of a node, in node-list order (`G.neighbors` in networkx). -/
def neighborsOf (g : Graph) (s : Pos) : List Pos :=
  g.nodes.filter (fun v => g.adj s v)

/-- Manhattan distance on integer cells (`Taxi._manhattan_distance`,
taxi.py, lines 203-205). -/
def manhattan (a b : Pos) : Nat :=
  (a.1 - b.1).natAbs + (a.2 - b.2).natAbs

/-- In-range test for a `width × height` grid cell. -/
def gridMem (width height : Int) (p : Pos) : Bool :=
  0 ≤ p.1 && p.1 < width && 0 ≤ p.2 && p.2 < height

/-- `create_road_network` (pathfinding.py, lines 10-23): networkx
`grid_2d_graph(width, height)`, the 4-neighbour lattice on
`{0..width-1} × {0..height-1}`. -/
def create_road_network (width height : Int) : Graph :=
  { nodes := (List.range width.toNat).flatMap (fun x =>
      (List.range height.toNat).map (fun y => (Int.ofNat x, Int.ofNat y))),
    adj := fun u v => gridMem width height u && gridMem width height v &&
      manhattan u v == 1 }

/-- `get_random_road_position` (pathfinding.py, lines 26-38): `None` on an
empty graph, otherwise `random.choice(list(nodes))`, embedded with the random
draw as an index oracle reduced modulo the node count. -/
def get_random_road_position (g : Graph) (pick : Nat) : Option Pos :=
  match g.nodes with
  | [] => none
  | x :: xs => some ((x :: xs).getD (pick % (x :: xs).length) x)

/-- `p` lists the successive cells of a walk from `s` to `t` in `g` (the kind
of sequence `nx.shortest_path` returns, start included). -/
def IsPath (g : Graph) (s t : Pos) (p : List Pos) : Prop :=
  p.head? = some s ∧ p.getLast? = some t ∧
    List.Chain' (fun a b => g.adj a b = true) p

/-- Bounded reachability: `reachIn g t n s` holds when some walk of at most
`n` edges leads from `s` to `t`.  This is the semantic core of the breadth
first search performed by `nx.shortest_path` on an unweighted graph. -/
def reachIn (g : Graph) (t : Pos) : Nat → Pos → Bool
  | 0, s => s == t
  | n + 1, s => s == t || (neighborsOf g s).any (fun u => reachIn g t n u)

/-- Extract a concrete walk witnessing `reachIn`, by greedy descent on the
remaining distance (the walk an unweighted BFS yields). -/
def buildPath (g : Graph) (t : Pos) : Nat → Pos → List Pos
  | 0, s => [s]
  | n + 1, s =>
      if s == t then [s]
      else
        match (neighborsOf g s).find? (fun u => reachIn g t n u) with
        | some u => s :: buildPath g t n u
        | none => [s]

/-- Least `n` in `[cur, cur + fuel)` satisfying `p`, scanning upward. -/
def upSearch (p : Nat → Bool) : Nat → Nat → Option Nat
  | 0, _ => none
  | fuel + 1, cur => if p cur then some cur else upSearch p fuel (cur + 1)

/-- Length (in edges) of the shortest walk from `s` to `t`, or `none` when
`t` is unreachable from `s`; a shortest walk never repeats a node, so `|V|`
edges always suffice and the bounded search is exhaustive. -/
def shortestDistance (g : Graph) (s t : Pos) : Option Nat :=
  upSearch (fun n => reachIn g t n s) (g.nodes.length + 1) 0

/-- `nx.shortest_path(G, start, end)` on an unweighted graph: a
minimum-length node sequence from `start` to `end` (`start` included), or the
`NetworkXNoPath` outcome (`none`) when `end` is unreachable. -/
def nx_shortest_path (g : Graph) (s t : Pos) : Option (List Pos) :=
  match shortestDistance g s t with
  | some n => some (buildPath g t n s)
  | none => none

/-- `Taxi._find_path` (taxi.py, lines 169-177): membership guard, the
library call, `path[1:] if len(path) > 1 else []`, and `NetworkXNoPath`
caught and turned into `[]`. -/
def find_path (g : Graph) (s t : Pos) : List Pos :=
  if s ∈ g.nodes ∧ t ∈ g.nodes then
    match nx_shortest_path g s t with
    | some p => if 1 < p.length then p.drop 1 else []
    | none => []
  else []

/-- `Taxi._get_capacity` (taxi.py, lines 29-36). -/
def get_capacity : TaxiType → Nat
  | TaxiType.economy => 1
  | TaxiType.premium => 2
  | TaxiType.luxury => 3

/-- `Taxi._get_speed` (taxi.py, lines 38-45). -/
def get_speed : TaxiType → Nat
  | TaxiType.economy => 1
  | TaxiType.premium => 1
  | TaxiType.luxury => 1

/-- `Taxi.__init__` state (taxi.py, lines 15-27). -/
structure Taxi where
  uid : Nat
  position : Pos
  taxi_type : TaxiType
  passengers : List Passenger
  destinations : List Pos
  path : List Pos
  status : TStatus
  total_distance : Nat
  total_passengers : Nat
  revenue : ℚ
  capacity : Nat
  speed : Nat
deriving DecidableEq, Repr

/-- `Taxi.__init__`: empty lists, idle, capacity and speed derived from the
taxi type. -/
def Taxi.init (uid : Nat) (position : Pos) (taxi_type : TaxiType) : Taxi :=
  { uid := uid, position := position, taxi_type := taxi_type,
    passengers := [], destinations := [], path := [], status := TStatus.idle,
    total_distance := 0, total_passengers := 0, revenue := 0,
    capacity := get_capacity taxi_type, speed := get_speed taxi_type }

/-- The priority-score dictionary
`{'emergency': 3, 'vip': 2, 'regular': 1}.get(priority, 1)`
(taxi.py, line 70). -/
def priorityScore : Priority → Nat
  | Priority.emergency => 3
  | Priority.vip => 2
  | Priority.regular => 1

/-- The fare multiplier `{'emergency': 2.0, 'vip': 1.5, 'regular': 1.0}`
(taxi.py, lines 155-157). -/
def priorityMultiplier : Priority → ℚ
  | Priority.emergency => 2
  | Priority.vip => 3 / 2
  | Priority.regular => 1

/-- A candidate tuple `(agent, distance, priority_score)` built in
`Taxi._find_passenger` (taxi.py, line 71). -/
abbrev Cand := Passenger × Nat × Nat

/-- Strict comparison of the Python sort key `(-priority_score, distance)`
(taxi.py, line 75): higher score first, then smaller distance. -/
def keyLt (a b : Cand) : Bool :=
  b.2.2 < a.2.2 || (a.2.2 == b.2.2 && a.2.1 < b.2.1)

/-- Non-strict version of `keyLt`; the sorted output is a chain under it. -/
def keyLE (a b : Cand) : Bool :=
  !(keyLt b a)

/-- Stable insertion of a candidate that originally preceded every element of
the list: it lands before the first element whose key is not strictly
smaller, exactly where Python's stable sort keeps it. -/
def insertCand (a : Cand) : List Cand → List Cand
  | [] => [a]
  | b :: l => if keyLt b a then b :: insertCand a l else a :: b :: l

/-- Stable sort by `(-priority_score, distance)`; agrees with the stable
`list.sort(key=lambda x: (-x[2], x[1]))` of taxi.py, line 75. -/
def sortCands : List Cand → List Cand
  | [] => []
  | a :: l => insertCand a (sortCands l)

/-- The fields of the Mesa model that a `Taxi` method reads during one step:
the road network, the schedule's agent list restricted to passengers (taxis
and traffic lights never pass the `isinstance(agent, Passenger)` filter), the
traffic lights present in each grid cell in cell-content order, the
4-neighbourhood provided by `grid.get_neighborhood`, and the index drawn by
`random.choice` in `_random_move`. -/
structure Env where
  g : Graph
  agents : List Passenger
  lights : Pos → List TrafficLight
  nbhd : Pos → List Pos
  pick : Nat

/-- The candidate-collection loop of `Taxi._find_passenger` (taxi.py, lines
63-71): every waiting passenger, kept only while
`len(self.passengers) < self.capacity` (a loop-invariant condition, checked
per element exactly as in the source). -/
def availablePassengers (env : Env) (t : Taxi) : List Cand :=
  (env.agents.filter (fun a =>
      a.status == PStatus.waiting && decide (t.passengers.length < t.capacity))).map
    (fun a => (a, manhattan t.position a.position, priorityScore a.priority))

/-- `Taxi._can_move_to` (taxi.py, lines 179-201): the first `TrafficLight`
in the target cell's contents decides; horizontal axis when `|dx| > |dy|`,
vertical when `|dy| > |dx|`, otherwise the plain `is_green()` check. -/
def can_move_to (lights : Pos → List TrafficLight) (selfPos pos : Pos) : Bool :=
  match (lights pos).head? with
  | none => true
  | some l =>
      let dx := pos.1 - selfPos.1
      let dy := pos.2 - selfPos.2
      if dy.natAbs < dx.natAbs then l.is_green_for_axis Axis.horizontal
      else if dx.natAbs < dy.natAbs then l.is_green_for_axis Axis.vertical
      else l.is_green

/-- Python's `min(remaining, key=...)`: the first element attaining the
minimal key. -/
def argminFirst (f : Pos → Nat) : List Pos → Option Pos
  | [] => none
  | x :: xs =>
      match argminFirst f xs with
      | none => some x
      | some y => if f x ≤ f y then some x else some y

/-- The `while remaining:` loop of `Taxi._plan_route` (taxi.py, lines
113-117), with fuel `remaining.length`: pick the nearest remaining
destination by Manhattan distance, extend the route with the shortest path
to it, erase its first occurrence, continue from it. -/
def plan_route_aux (g : Graph) : Nat → Pos → List Pos → List Pos
  | 0, _, _ => []
  | fuel + 1, current, remaining =>
      match argminFirst (manhattan current) remaining with
      | none => []
      | some nearest =>
          find_path g current nearest ++
            plan_route_aux g fuel nearest (remaining.erase nearest)

/-- `Taxi._plan_route` (taxi.py, lines 103-119): leaves the stored path
unchanged when there are no destinations, otherwise replaces it by the
greedy nearest-neighbour route. -/
def plan_route (g : Graph) (position : Pos) (destinations oldPath : List Pos) :
    List Pos :=
  if destinations = [] then oldPath
  else plan_route_aux g destinations.length position destinations

/-- `Taxi._random_move` (taxi.py, lines 207-218): a uniformly chosen
on-network 4-neighbour (the draw is the oracle index `env.pick`), entered
only when the movement-blocking rule allows it.  No distance is recorded. -/
def random_move (env : Env) (t : Taxi) : Taxi :=
  match (env.nbhd t.position).filter (fun n => env.g.nodes.contains n) with
  | [] => t
  | x :: xs =>
      let next := (x :: xs).getD (env.pick % (x :: xs).length) x
      if can_move_to env.lights t.position next then { t with position := next }
      else t

/-- `Taxi._find_passenger` (taxi.py, lines 56-101): collect candidates, pick
the stably sorted best, head for it one cell (re-planning the path from
scratch), and on arrival attach the passenger to both parallel lists, flip
both statuses and re-plan the multi-stop route; with no candidate, explore
randomly. -/
def find_passenger (env : Env) (t : Taxi) : Taxi :=
  match (sortCands (availablePassengers env t)).head? with
  | none => random_move env t
  | some c =>
      let nearest := c.1
      let t := { t with status := TStatus.picking_up }
      let pickup := nearest.position
      let t := { t with path := find_path env.g t.position pickup }
      match t.path with
      | [] => t
      | next :: rest =>
          let t := { t with path := rest }
          if can_move_to env.lights t.position next then
            let t := { t with position := next,
                              total_distance := t.total_distance + 1 }
            if t.position = pickup then
              let t := { t with
                passengers := t.passengers ++
                  [{ nearest with status := PStatus.in_taxi }],
                destinations := t.destinations ++ [nearest.destination],
                status := TStatus.transporting }
              { t with path := plan_route env.g t.position t.destinations t.path }
            else t
          else t

/-- The drop-off block of `Taxi._transport_passengers` (taxi.py, lines
138-158).  Python collects the indices `i` with `destinations[i] == pos` and
pops them from both lists in reverse order; that equals keeping, in order,
exactly the index-aligned pairs whose destination differs from `pos` (any
passengers beyond `len(destinations)` are untouched).  Returns the remaining
passengers, the remaining destinations, and the dropped passengers. -/
def dropOff (pos : Pos) (passengers : List Passenger) (destinations : List Pos) :
    List Passenger × List Pos × List Passenger :=
  let m := destinations.length
  let pairs := (passengers.take m).zip destinations
  let kept := pairs.filter (fun pd => !(pd.2 == pos))
  let dropped := pairs.filter (fun pd => pd.2 == pos)
  (kept.map Prod.fst ++ passengers.drop m, kept.map Prod.snd,
    dropped.map Prod.fst)

/-- `Taxi._transport_passengers` (taxi.py, lines 121-167): re-plan when the
path ran out, advance one cell (popping it before the movement check),
carry every onboard passenger along, drop off the passengers whose
destination is reached (status `arrived`, revenue
`10.0 × priority multiplier`), then either go idle or re-plan. -/
def transport_passengers (env : Env) (t : Taxi) : Taxi :=
  let t :=
    if t.path = [] ∧ t.destinations ≠ [] then
      { t with path := plan_route env.g t.position t.destinations t.path }
    else t
  match t.path with
  | [] => t
  | next :: rest =>
      let t := { t with path := rest }
      if can_move_to env.lights t.position next then
        let t := { t with position := next,
                          total_distance := t.total_distance + 1,
                          passengers := t.passengers.map
                            (fun (p : Passenger) => { p with position := next }) }
        let res := dropOff t.position t.passengers t.destinations
        let dropped := res.2.2
        let t := { t with
          passengers := res.1,
          destinations := res.2.1,
          total_passengers := t.total_passengers + dropped.length,
          revenue := t.revenue +
            (dropped.map (fun (p : Passenger) => 10 * priorityMultiplier p.priority)).sum }
        if t.passengers = [] then
          { t with destinations := [], status := TStatus.idle, path := [] }
        else if t.path = [] ∧ t.destinations ≠ [] then
          { t with path := plan_route env.g t.position t.destinations t.path }
        else t
      else t

/-- `Taxi.step` (taxi.py, lines 47-54): passenger search when empty,
transport otherwise. -/
def Taxi.tick (env : Env) (t : Taxi) : Taxi :=
  if t.passengers.length = 0 then find_passenger env t
  else transport_passengers env t

/-- Degree of a node, as `road_network.degree(node)` computes it. -/
def degreeOf (g : Graph) (v : Pos) : Nat :=
  (neighborsOf g v).length

/-- `CityModel._identify_intersections` (city_model.py, lines 113-121):
nodes of degree at least 3, falling back to the first `num_traffic_lights`
nodes when there are none. -/
def identify_intersections (g : Graph) (num_traffic_lights : Nat) : List Pos :=
  let inters := g.nodes.filter (fun v => decide (3 ≤ degreeOf g v))
  if inters = [] then g.nodes.take num_traffic_lights else inters

/-- The taxi-type distribution of `CityModel._create_taxis` (city_model.py,
lines 86-93): `int(num_taxis * 0.6)` and `int(num_taxis * 0.9)` cutoffs,
rendered with exact rational arithmetic. -/
def taxi_type_for (num_taxis i : Nat) : TaxiType :=
  if i < (num_taxis * 6) / 10 then TaxiType.economy
  else if i < (num_taxis * 9) / 10 then TaxiType.premium
  else TaxiType.luxury

/-- `CityModel._create_taxis` (city_model.py, lines 81-97): one taxi per
index at a random road position (skipped silently when the draw returns
`None`, i.e. on an empty network). -/
def create_taxis (g : Graph) (num_taxis : Nat) (picks : Nat → Nat) :
    List Taxi :=
  (List.range num_taxis).filterMap (fun i =>
    match get_random_road_position g (picks i) with
    | none => none
    | some pos => some (Taxi.init i pos (taxi_type_for num_taxis i)))

/-- `random.sample(population, k)`: `k` distinct draws without replacement,
with the successive choices supplied by the oracle `sel`. -/
def sampleOracle (sel : Nat → Nat) : Nat → List Pos → List Pos
  | 0, _ => []
  | _ + 1, [] => []
  | k + 1, x :: xs =>
      let idx := sel k % (x :: xs).length
      (x :: xs).getD idx x ::
        sampleOracle sel k ((x :: xs).eraseIdx idx)

/-- `CityModel._create_traffic_lights` (city_model.py, lines 99-111):
sample `min(num, intersections)` intersections and alternate
horizontal/vertical control by enumeration index. -/
def create_traffic_lights (g : Graph) (num_traffic_lights : Nat)
    (sel : Nat → Nat) : List TrafficLight :=
  let inters := identify_intersections g num_traffic_lights
  let selected := sampleOracle sel (min num_traffic_lights inters.length) inters
  selected.enum.map (fun ip =>
    TrafficLight.init ip.2
      (if ip.1 % 2 == 0 then Axis.horizontal else Axis.vertical))

/-- `CityModel.__init__` state (city_model.py, lines 24-79), restricted to
the simulation core (the two data collectors only aggregate statistics). -/
structure CityModel where
  width : Int
  height : Int
  num_taxis : Nat
  num_traffic_lights : Nat
  passenger_spawn_rate : ℚ
  enable_rush_hour : Bool
  enable_weather : Bool
  rush_hour_active : Bool
  rush_hour_multiplier : ℚ
  weather_speed_modifier : ℚ
  road_network : Graph
  taxis : List Taxi
  traffic_lights : List TrafficLight
  intersections : List Pos
  running : Bool

/-- `CityModel.__init__` (city_model.py, lines 24-79).  Every argument is
stored as given: the constructor performs no validation of the dimensions or
of the spawn rate, and no execution path raises. -/
def CityModel.init (width height : Int) (num_taxis num_traffic_lights : Nat)
    (passenger_spawn_rate : ℚ) (enable_rush_hour enable_weather : Bool)
    (taxiPicks : Nat → Nat) (sel : Nat → Nat) : CityModel :=
  let g := create_road_network width height
  { width := width, height := height, num_taxis := num_taxis,
    num_traffic_lights := num_traffic_lights,
    passenger_spawn_rate := passenger_spawn_rate,
    enable_rush_hour := enable_rush_hour, enable_weather := enable_weather,
    rush_hour_active := false, rush_hour_multiplier := 2,
    weather_speed_modifier := 1, road_network := g,
    taxis := create_taxis g num_taxis taxiPicks,
    traffic_lights := create_traffic_lights g num_traffic_lights sel,
    intersections := identify_intersections g num_traffic_lights,
    running := true }

/-- The `while end_pos == start_pos:` retry loop of
`CityModel._spawn_passenger` (city_model.py, lines 208-210), with explicit
fuel: `some endPos` when the loop exits, `none` when the given number of
iterations did not suffice (so `∀ fuel, … = none` states that the loop runs
forever). -/
def spawn_end_retry (g : Graph) (picks : Nat → Nat) (start_pos : Option Pos) :
    Nat → Nat → Option Pos → Option (Option Pos)
  | 0, _, _ => none
  | fuel + 1, k, end_pos =>
      if end_pos = start_pos then
        spawn_end_retry g picks start_pos fuel (k + 1)
          (get_random_road_position g (picks k))
      else some end_pos

/-- `CityModel._spawn_passenger` (city_model.py, lines 203-225): draw origin
and destination, retry the destination while it equals the origin, then — if
both are truthy — draw a priority (5% emergency, 15% vip, 80% regular) and
add the passenger.  The outer `Option` is `none` exactly when the retry loop
exceeded its fuel; the inner `Option` is the silently-absent passenger of a
falsy draw. -/
def spawn_passenger (g : Graph) (picks : Nat → Nat) (prio_rand : ℚ)
    (fuel : Nat) : Option (Option Passenger) :=
  let start_pos := get_random_road_position g (picks 0)
  let end0 := get_random_road_position g (picks 1)
  match spawn_end_retry g picks start_pos fuel 2 end0 with
  | none => none
  | some end_pos =>
      match start_pos, end_pos with
      | some sp, some ep =>
          let priority :=
            if prio_rand < 1 / 20 then Priority.emergency
            else if prio_rand < 1 / 5 then Priority.vip
            else Priority.regular
          some (some (Passenger.init 0 sp ep priority))
      | _, _ => some none

/-! ## Theorems -/

/-- C4: a traffic light never changes state before its minimum dwell time:
whatever vehicle density is observed, a green light switches to red only
when it has been green for at least `min_green_time = 5` ticks (counting the
tick being processed, whose increment happens first), and a red light
switches to green only after at least `min_red_time = 3` ticks red. -/
theorem trafficLight_min_dwell (l : TrafficLight) (density : Axis → Nat)
    (hg : l.min_green_time = 5) (hr : l.min_red_time = 3) :
    (l.state = LightState.green → (l.tick density).state = LightState.red →
      5 ≤ l.time_in_state + 1) ∧
    (l.state = LightState.red → (l.tick density).state = LightState.green →
      3 ≤ l.time_in_state + 1) := by
  constructor
  · intro hst hsw
    by_contra hlt
    have hcond : ¬ ((5 : Nat) ≤ l.time_in_state + 1) := hlt
    simp only [TrafficLight.tick, hst, hg] at hsw
    rw [if_neg hcond] at hsw
    simp [hst] at hsw
  · intro hst hsw
    by_contra hlt
    have hcond : ¬ ((3 : Nat) ≤ l.time_in_state + 1) := hlt
    simp only [TrafficLight.tick, hst, hr] at hsw
    rw [if_neg hcond] at hsw
    simp [hst] at hsw

/-- Witness for C4 at a concrete light and density. -/
theorem trafficLight_min_dwell_witness :
    let l : TrafficLight :=
      { position := (0, 0), axis := Axis.horizontal,
        state := LightState.green, time_in_state := 14, min_green_time := 5,
        max_green_time := 15, min_red_time := 3 }
    let d : Axis → Nat := fun a => match a with
      | Axis.horizontal => 0
      | Axis.vertical => 2
    (l.state = LightState.green → (l.tick d).state = LightState.red →
      5 ≤ l.time_in_state + 1) ∧
    (l.state = LightState.red → (l.tick d).state = LightState.green →
      3 ≤ l.time_in_state + 1) :=
  trafficLight_min_dwell _ _ rfl rfl

/-- C6: a waiting passenger's `wait_time` grows by exactly one per tick and
the passenger is removed exactly when the incremented `wait_time` strictly
exceeds its priority threshold (regular 500, vip 300, emergency 100); in
particular an emergency passenger whose `wait_time` is 101 is removed on the
very next tick, as an ordinary transition (the removal flag, not an
error). -/
theorem passenger_wait_expiry (p : Passenger)
    (hw : p.status = PStatus.waiting)
    (hm : p.max_wait_time = get_max_wait_time p.priority) :
    (p.tick.1.wait_time = p.wait_time + 1) ∧
    (p.tick.2 = true ↔ get_max_wait_time p.priority < p.wait_time + 1) ∧
    (p.priority = Priority.emergency → p.wait_time = 101 →
      p.tick.2 = true) := by
  refine ⟨?_, ?_, ?_⟩
  · simp [Passenger.tick, hw]
  · simp [Passenger.tick, hw, hm]
  · intro hp hwt
    simp [Passenger.tick, hw, hm, hp, hwt, get_max_wait_time]

/-- Witness for C6 at a concrete emergency passenger with `wait_time` 101. -/
theorem passenger_wait_expiry_witness :
    let p : Passenger :=
      { uid := 7, position := (2, 3), destination := (5, 5),
        priority := Priority.emergency, status := PStatus.waiting,
        wait_time := 101, max_wait_time := 100 }
    (p.tick.1.wait_time = p.wait_time + 1) ∧
    (p.tick.2 = true ↔ get_max_wait_time p.priority < p.wait_time + 1) ∧
    (p.priority = Priority.emergency → p.wait_time = 101 →
      p.tick.2 = true) :=
  passenger_wait_expiry _ rfl rfl

/-- A red horizontally-controlled light, for the C3 counterexample. -/
def c3Light : TrafficLight :=
  { position := (1, 1), axis := Axis.horizontal, state := LightState.red,
    time_in_state := 0, min_green_time := 5, max_green_time := 15,
    min_red_time := 3 }

/-- Cell contents with `c3Light` at `(1, 1)` and nothing elsewhere. -/
def c3Lights : Pos → List TrafficLight :=
  fun p => if p = (1, 1) then [c3Light] else []

/-- C3 counterexample: on the degenerate move `(0,0) → (1,1)` (so
`|Δx| = |Δy|`) into a cell holding a red light, the code denies entry
(`is_green()` is false), whereas `is_green_for_direction` holds for the
vertical axis, so the claimed equivalence with "`is_green_for_direction`
holds for horizontal or for vertical" — a disjunction that is true for every
two-state light — fails. -/
theorem can_move_to_degenerate_cex :
    can_move_to c3Lights (0, 0) (1, 1) = false ∧
    (c3Light.is_green_for_axis Axis.horizontal ||
      c3Light.is_green_for_axis Axis.vertical) = true := by
  constructor <;> rfl

/-- C3 (amended): entry into a cell whose first occupant light is `l` is
decided by `is_green_for_direction` of the travel axis when one axis
dominates, and in the degenerate `|Δx| = |Δy|` case by the light's plain
`is_green()` state — equivalently `is_green_for_direction` of the light's
own controlled axis — not by the always-true either-axis disjunction. -/
theorem can_move_to_axis_rule (lights : Pos → List TrafficLight)
    (selfPos pos : Pos) (l : TrafficLight)
    (hl : (lights pos).head? = some l) :
    ((pos.2 - selfPos.2).natAbs < (pos.1 - selfPos.1).natAbs →
      can_move_to lights selfPos pos = l.is_green_for_axis Axis.horizontal) ∧
    ((pos.1 - selfPos.1).natAbs < (pos.2 - selfPos.2).natAbs →
      can_move_to lights selfPos pos = l.is_green_for_axis Axis.vertical) ∧
    ((pos.1 - selfPos.1).natAbs = (pos.2 - selfPos.2).natAbs →
      can_move_to lights selfPos pos = l.is_green ∧
      l.is_green = l.is_green_for_axis l.axis) := by
  refine ⟨?_, ?_, ?_⟩
  · intro hx
    simp only [can_move_to, hl]
    rw [if_pos hx]
  · intro hy
    simp only [can_move_to, hl]
    rw [if_neg (by omega), if_pos hy]
  · intro hxy
    constructor
    · simp only [can_move_to, hl]
      rw [if_neg (by omega), if_neg (by omega)]
    · simp [TrafficLight.is_green, TrafficLight.is_green_for_axis]

/-- Witness for the amended C3 at a concrete light and move. -/
theorem can_move_to_axis_rule_witness :
    ((((1 : Int), (1 : Int)).2 - ((0 : Int), (0 : Int)).2).natAbs <
        (((1 : Int), (1 : Int)).1 - ((0 : Int), (0 : Int)).1).natAbs →
      can_move_to c3Lights (0, 0) (1, 1) =
        c3Light.is_green_for_axis Axis.horizontal) ∧
    ((((1 : Int), (1 : Int)).1 - ((0 : Int), (0 : Int)).1).natAbs <
        (((1 : Int), (1 : Int)).2 - ((0 : Int), (0 : Int)).2).natAbs →
      can_move_to c3Lights (0, 0) (1, 1) =
        c3Light.is_green_for_axis Axis.vertical) ∧
    ((((1 : Int), (1 : Int)).1 - ((0 : Int), (0 : Int)).1).natAbs =
        (((1 : Int), (1 : Int)).2 - ((0 : Int), (0 : Int)).2).natAbs →
      can_move_to c3Lights (0, 0) (1, 1) = c3Light.is_green ∧
      c3Light.is_green = c3Light.is_green_for_axis c3Light.axis) :=
  can_move_to_axis_rule c3Lights (0, 0) (1, 1) c3Light rfl

/-- C8 evidence: constructing the model with a non-positive width and a
spawn rate outside `[0, 1]` is silently accepted — the constructor stores
the invalid values verbatim, builds an empty road network and no taxis, and
finishes with `running = true`; no configuration error is signaled. -/
theorem cityModel_init_no_validation :
    (CityModel.init 0 30 10 8 (3 / 2) true false (fun _ => 0)
        (fun _ => 0)).running = true ∧
    (CityModel.init 0 30 10 8 (3 / 2) true false (fun _ => 0)
        (fun _ => 0)).passenger_spawn_rate = 3 / 2 ∧
    (CityModel.init 0 30 10 8 (3 / 2) true false (fun _ => 0)
        (fun _ => 0)).width = 0 ∧
    (CityModel.init 0 30 10 8 (3 / 2) true false (fun _ => 0)
        (fun _ => 0)).road_network.nodes = [] ∧
    (CityModel.init 0 30 10 8 (3 / 2) true false (fun _ => 0)
        (fun _ => 0)).taxis = [] :=
  ⟨rfl, rfl, rfl, rfl, rfl⟩

/-- On a graph with no nodes the destination retry loop never exits: every
draw returns `None`, which keeps `end_pos == start_pos` true. -/
theorem spawn_end_retry_empty (g : Graph) (h : g.nodes = [])
    (picks : Nat → Nat) :
    ∀ (fuel k : Nat), spawn_end_retry g picks none fuel k none = none := by
  intro fuel
  induction fuel with
  | zero => intro k; rfl
  | succ n ih =>
      intro k
      have hd : get_random_road_position g (picks k) = none := by
        unfold get_random_road_position
        rw [h]
      unfold spawn_end_retry
      rw [if_pos rfl, hd]
      exact ih (k + 1)

/-- C5 evidence: with an empty road network, `random_position` does return
`None`, but `_spawn_passenger` does not terminate: both draws are `None`, so
the `while end_pos == start_pos` loop redraws `None` forever — the spawn is
a hang, not a silent no-op. -/
theorem spawn_empty_network_diverges :
    (∀ (picks : Nat → Nat) (prio_rand : ℚ) (fuel : Nat),
      spawn_passenger (create_road_network 0 30) picks prio_rand fuel =
        none) ∧
    (∀ pick : Nat,
      get_random_road_position (create_road_network 0 30) pick = none) := by
  have hnodes : (create_road_network 0 30).nodes = [] := rfl
  constructor
  · intro picks prio_rand fuel
    have h0 : get_random_road_position (create_road_network 0 30) (picks 0) =
        none := by
      unfold get_random_road_position; rw [hnodes]
    have h1 : get_random_road_position (create_road_network 0 30) (picks 1) =
        none := by
      unfold get_random_road_position; rw [hnodes]
    simp only [spawn_passenger, h0, h1,
      spawn_end_retry_empty _ hnodes picks fuel 2]
  · intro pick
    unfold get_random_road_position; rw [hnodes]

/-- C10: the next path cell is popped before the movement check, in both
behaviors that follow a path.  When the check then fails, the taxi keeps its
position for the tick but the blocked cell is already gone from the stored
path, leaving the subsequent cell as the next tick's target (unless a
re-plan replaces the path). -/
theorem blocked_cell_discarded (env : Env) (t : Taxi) (next : Pos)
    (rest : List Pos) (hpath : t.path = next :: rest)
    (hblock : can_move_to env.lights t.position next = false) :
    ((transport_passengers env t).path = rest ∧
     (transport_passengers env t).position = t.position) ∧
    (∀ (env' : Env) (t' : Taxi) (c : Cand) (next' : Pos) (rest' : List Pos),
      (sortCands (availablePassengers env' t')).head? = some c →
      find_path env'.g t'.position c.1.position = next' :: rest' →
      can_move_to env'.lights t'.position next' = false →
      (find_passenger env' t').path = rest' ∧
      (find_passenger env' t').position = t'.position) := by
  constructor
  · have hne : ¬ (t.path = [] ∧ t.destinations ≠ []) := by
      rw [hpath]; simp
    simp only [transport_passengers, if_neg hne]
    rw [hpath]
    simp only [hblock]
    simp
  · intro env' t' c next' rest' hsel hfp hblock'
    simp only [find_passenger, hsel, hfp, hblock']
    simp

/-- Environment for the C10 witness: a 1×3 column network with a green
horizontally-controlled light at `(0, 1)` (red for vertical travel) and a
waiting passenger at `(0, 2)`. -/
def c10Env : Env :=
  { g := create_road_network 1 3,
    agents := [Passenger.init 0 (0, 2) (0, 0) Priority.regular],
    lights := fun p =>
      if p = (0, 1) then [TrafficLight.init (0, 1) Axis.horizontal] else [],
    nbhd := fun _ => [],
    pick := 0 }

/-- Taxi for the C10 witness: transporting along the column with the blocked
cell `(0, 1)` at the head of its path. -/
def c10Taxi : Taxi :=
  { uid := 0, position := (0, 0), taxi_type := TaxiType.economy,
    passengers := [Passenger.init 1 (0, 0) (0, 2) Priority.regular],
    destinations := [(0, 2)], path := [(0, 1), (0, 2)],
    status := TStatus.transporting, total_distance := 0,
    total_passengers := 0, revenue := 0, capacity := 1, speed := 1 }

/-- Witness for C10 at the concrete blocked move `(0,0) → (0,1)`. -/
theorem blocked_cell_discarded_witness :
    ((transport_passengers c10Env c10Taxi).path = [(0, 2)] ∧
     (transport_passengers c10Env c10Taxi).position = c10Taxi.position) ∧
    (∀ (env' : Env) (t' : Taxi) (c : Cand) (next' : Pos) (rest' : List Pos),
      (sortCands (availablePassengers env' t')).head? = some c →
      find_path env'.g t'.position c.1.position = next' :: rest' →
      can_move_to env'.lights t'.position next' = false →
      (find_passenger env' t').path = rest' ∧
      (find_passenger env' t').position = t'.position) :=
  blocked_cell_discarded c10Env c10Taxi (0, 1) [(0, 2)] rfl (by decide)

/-- Insertion into the stable sort neither adds nor loses candidates. -/
theorem mem_insertCand {x a : Cand} {l : List Cand} :
    x ∈ insertCand a l ↔ x = a ∨ x ∈ l := by
  induction l with
  | nil => simp [insertCand]
  | cons b l ih =>
      unfold insertCand
      by_cases hba : keyLt b a = true
      · rw [if_pos hba]
        simp only [List.mem_cons, ih]
        tauto
      · rw [if_neg hba]
        simp only [List.mem_cons]

/-- The stable sort is a permutation at the level of membership. -/
theorem mem_sortCands {x : Cand} {l : List Cand} :
    x ∈ sortCands l ↔ x ∈ l := by
  induction l with
  | nil => simp [sortCands]
  | cons a l ih =>
      simp [sortCands, mem_insertCand, ih]

/-- Every collected candidate records the Manhattan distance and the
priority score of its passenger, was waiting, and was only collected while
the capacity check held. -/
theorem mem_availablePassengers {env : Env} {t : Taxi} {x : Cand}
    (h : x ∈ availablePassengers env t) :
    x.2.2 = priorityScore x.1.priority ∧
    x.2.1 = manhattan t.position x.1.position ∧
    x.1.status = PStatus.waiting ∧
    t.passengers.length < t.capacity ∧ x.1 ∈ env.agents := by
  unfold availablePassengers at h
  obtain ⟨a, ha, hx⟩ := List.mem_map.1 h
  obtain ⟨hmem, hcond⟩ := List.mem_filter.1 ha
  rw [Bool.and_eq_true, beq_iff_eq, decide_eq_true_eq] at hcond
  subst hx
  exact ⟨rfl, rfl, hcond.1, hcond.2, hmem⟩

/-- `_random_move` only ever changes the taxi's position. -/
theorem random_move_fields (env : Env) (t : Taxi) :
    (random_move env t).passengers = t.passengers ∧
    (random_move env t).destinations = t.destinations ∧
    (random_move env t).capacity = t.capacity ∧
    (random_move env t).taxi_type = t.taxi_type := by
  unfold random_move
  split
  · exact ⟨rfl, rfl, rfl, rfl⟩
  · dsimp only
    split <;> exact ⟨rfl, rfl, rfl, rfl⟩

/-- `_find_passenger` either leaves the two parallel lists unchanged or —
exactly on pickup — appends the passenger and their destination to the
respective lists together. -/
theorem find_passenger_lists (env : Env) (t : Taxi) :
    ((find_passenger env t).passengers = t.passengers ∧
     (find_passenger env t).destinations = t.destinations) ∨
    (∃ c : Cand, (sortCands (availablePassengers env t)).head? = some c ∧
      (find_passenger env t).passengers =
        t.passengers ++ [{ c.1 with status := PStatus.in_taxi }] ∧
      (find_passenger env t).destinations =
        t.destinations ++ [c.1.destination]) := by
  unfold find_passenger
  cases hsel : (sortCands (availablePassengers env t)).head? with
  | none =>
      have h := random_move_fields env t
      exact Or.inl ⟨h.1, h.2.1⟩
  | some c =>
      simp only []
      split
      · exact Or.inl ⟨rfl, rfl⟩
      · split
        · split
          · exact Or.inr ⟨c, rfl, rfl, rfl⟩
          · exact Or.inl ⟨rfl, rfl⟩
        · exact Or.inl ⟨rfl, rfl⟩

/-- `_find_passenger` never changes the capacity field or the taxi type. -/
theorem find_passenger_capacity (env : Env) (t : Taxi) :
    (find_passenger env t).capacity = t.capacity ∧
    (find_passenger env t).taxi_type = t.taxi_type := by
  unfold find_passenger
  cases hsel : (sortCands (availablePassengers env t)).head? with
  | none =>
      have h := random_move_fields env t
      exact ⟨h.2.2.1, h.2.2.2⟩
  | some c =>
      simp only []
      split
      · exact ⟨rfl, rfl⟩
      · split
        · split
          · exact ⟨rfl, rfl⟩
          · exact ⟨rfl, rfl⟩
        · exact ⟨rfl, rfl⟩

/-- The drop-off block never grows the passenger list. -/
theorem dropOff_le (pos : Pos) (passengers : List Passenger)
    (destinations : List Pos) :
    (dropOff pos passengers destinations).1.length ≤ passengers.length := by
  simp only [dropOff, List.length_append, List.length_map, List.length_drop]
  have h1 := List.length_filter_le (fun pd => !(pd.2 == pos))
    ((passengers.take destinations.length).zip destinations)
  have h2 : ((passengers.take destinations.length).zip destinations).length =
      min (min destinations.length passengers.length) destinations.length := by
    rw [List.length_zip, List.length_take]
  omega

/-- The drop-off block removes index-aligned pairs: starting from parallel
lists it returns parallel lists, no longer than before. -/
theorem dropOff_parallel (pos : Pos) (passengers : List Passenger)
    (destinations : List Pos)
    (h : passengers.length = destinations.length) :
    (dropOff pos passengers destinations).1.length =
      (dropOff pos passengers destinations).2.1.length ∧
    (dropOff pos passengers destinations).2.1.length ≤
      destinations.length := by
  have htake : passengers.take destinations.length = passengers := by
    apply List.take_of_length_le
    omega
  have hdrop : passengers.drop destinations.length = [] := by
    apply List.drop_eq_nil_of_le
    omega
  simp only [dropOff, htake, hdrop, List.length_append, List.length_map,
    List.length_nil]
  constructor
  · omega
  · have h2 := List.length_filter_le (fun pd => !(pd.2 == pos))
      (passengers.zip destinations)
    have h3 : (passengers.zip destinations).length =
        min passengers.length destinations.length := List.length_zip _ _
    omega

/-- `_transport_passengers` either leaves both parallel lists (and the
capacity data) untouched, or — exactly when it advances a cell — replaces
them by the index-aligned drop-off residue, clearing the destination list
when the last passenger left. -/
theorem transport_passengers_cases (env : Env) (t : Taxi) :
    ((transport_passengers env t).passengers = t.passengers ∧
     (transport_passengers env t).destinations = t.destinations ∧
     (transport_passengers env t).capacity = t.capacity ∧
     (transport_passengers env t).taxi_type = t.taxi_type) ∨
    (∃ next : Pos,
      (transport_passengers env t).passengers =
        (dropOff next
          (t.passengers.map (fun (p : Passenger) => { p with position := next }))
          t.destinations).1 ∧
      ((transport_passengers env t).destinations =
        (dropOff next
          (t.passengers.map (fun (p : Passenger) => { p with position := next }))
          t.destinations).2.1 ∨
       ((dropOff next
          (t.passengers.map (fun (p : Passenger) => { p with position := next }))
          t.destinations).1 = [] ∧
        (transport_passengers env t).destinations = [])) ∧
      (transport_passengers env t).capacity = t.capacity ∧
      (transport_passengers env t).taxi_type = t.taxi_type) := by
  unfold transport_passengers
  by_cases hif : t.path = [] ∧ t.destinations ≠ []
  · rw [if_pos hif]
    simp only []
    split
    · exact Or.inl ⟨rfl, rfl, rfl, rfl⟩
    · rename_i next rest heq
      split
      · rename_i hmv
        split
        · rename_i hempty
          exact Or.inr ⟨next, rfl, Or.inr ⟨hempty, rfl⟩, rfl, rfl⟩
        · split
          · exact Or.inr ⟨next, rfl, Or.inl rfl, rfl, rfl⟩
          · exact Or.inr ⟨next, rfl, Or.inl rfl, rfl, rfl⟩
      · exact Or.inl ⟨rfl, rfl, rfl, rfl⟩
  · rw [if_neg hif]
    simp only []
    split
    · exact Or.inl ⟨rfl, rfl, rfl, rfl⟩
    · rename_i next rest heq
      split
      · rename_i hmv
        split
        · rename_i hempty
          exact Or.inr ⟨next, rfl, Or.inr ⟨hempty, rfl⟩, rfl, rfl⟩
        · split
          · exact Or.inr ⟨next, rfl, Or.inl rfl, rfl, rfl⟩
          · exact Or.inr ⟨next, rfl, Or.inl rfl, rfl, rfl⟩
      · exact Or.inl ⟨rfl, rfl, rfl, rfl⟩

/-- The C1 invariant: the two parallel lists have equal length, bounded by
the capacity that the taxi's type prescribes. -/
def TaxiInv (t : Taxi) : Prop :=
  t.passengers.length = t.destinations.length ∧
  t.destinations.length ≤ t.capacity ∧
  t.capacity = get_capacity t.taxi_type

instance (t : Taxi) : Decidable (TaxiInv t) := by
  unfold TaxiInv; infer_instance

/-- C1: one taxi step preserves
`len(passengers) = len(destinations) ≤ capacity` (capacity 1/2/3 by type);
moreover the only attaching operation appends the picked passenger and their
destination to the two lists together, and drop-off removes index-aligned
entries from both lists together (their lengths stay equal). -/
theorem taxi_parallel_lists_inv (env : Env) (t : Taxi) (h : TaxiInv t) :
    TaxiInv (Taxi.tick env t) ∧
    (((find_passenger env t).passengers = t.passengers ∧
      (find_passenger env t).destinations = t.destinations) ∨
     (∃ c : Cand, (sortCands (availablePassengers env t)).head? = some c ∧
       (find_passenger env t).passengers =
         t.passengers ++ [{ c.1 with status := PStatus.in_taxi }] ∧
       (find_passenger env t).destinations =
         t.destinations ++ [c.1.destination])) ∧
    (t.passengers.length = t.destinations.length →
      (transport_passengers env t).passengers.length =
        (transport_passengers env t).destinations.length) := by
  obtain ⟨h1, h2, h3⟩ := h
  have htrans : t.passengers.length = t.destinations.length →
      (transport_passengers env t).passengers.length =
        (transport_passengers env t).destinations.length := by
    intro heq
    rcases transport_passengers_cases env t with ⟨hp, hd, _, _⟩ |
      ⟨next, hp, hd, _, _⟩
    · rw [hp, hd]; exact heq
    · have hmap : (t.passengers.map
          (fun (p : Passenger) => { p with position := next })).length =
          t.destinations.length := by
        rw [List.length_map]; exact heq
      have hpar := dropOff_parallel next _ t.destinations hmap
      rcases hd with hd | ⟨hnil, hd⟩
      · rw [hp, hd]; exact hpar.1
      · rw [hp, hd, hnil]; rfl
  refine ⟨?_, find_passenger_lists env t, htrans⟩
  unfold Taxi.tick
  by_cases hz : t.passengers.length = 0
  · rw [if_pos hz]
    have hc := find_passenger_capacity env t
    rcases find_passenger_lists env t with ⟨hp, hd⟩ | ⟨c, hsel, hp, hd⟩
    · exact ⟨by rw [hp, hd]; exact h1,
        by rw [hd, hc.1]; exact h2, by rw [hc.1, hc.2]; exact h3⟩
    · have hcap : t.passengers.length < t.capacity := by
        have hmem : c ∈ availablePassengers env t :=
          mem_sortCands.1 (List.mem_of_mem_head? hsel)
        exact (mem_availablePassengers hmem).2.2.2.1
      refine ⟨?_, ?_, by rw [hc.1, hc.2]; exact h3⟩
      · rw [hp, hd, List.length_append, List.length_append, h1]
        rfl
      · rw [hd, List.length_append, hc.1]
        simp only [List.length_cons, List.length_nil]
        omega
  · rw [if_neg hz]
    rcases transport_passengers_cases env t with ⟨hp, hd, hcap, hty⟩ |
      ⟨next, hp, hd, hcap, hty⟩
    · exact ⟨by rw [hp, hd]; exact h1, by rw [hd, hcap]; exact h2,
        by rw [hcap, hty]; exact h3⟩
    · have hmap : (t.passengers.map
          (fun (p : Passenger) => { p with position := next })).length =
          t.destinations.length := by
        rw [List.length_map]; exact h1
      have hpar := dropOff_parallel next _ t.destinations hmap
      rcases hd with hd | ⟨hnil, hd⟩
      · exact ⟨by rw [hp, hd]; exact hpar.1,
          by rw [hd, hcap]; exact le_trans hpar.2 h2,
          by rw [hcap, hty]; exact h3⟩
      · exact ⟨by rw [hp, hd, hnil]; rfl,
          by rw [hd, hcap]; exact Nat.zero_le _,
          by rw [hcap, hty]; exact h3⟩

/-- Environment for the C1 witness: no waiting passengers anywhere. -/
def c1Env : Env :=
  { g := create_road_network 2 2, agents := [], lights := fun _ => [],
    nbhd := fun _ => [], pick := 0 }

/-- Taxi for the C1 witness: a fresh economy taxi. -/
def c1Taxi : Taxi := Taxi.init 0 (0, 0) TaxiType.economy

/-- Witness for C1 at a concrete taxi satisfying the invariant. -/
theorem taxi_parallel_lists_inv_witness :
    TaxiInv (Taxi.tick c1Env c1Taxi) ∧
    (((find_passenger c1Env c1Taxi).passengers = c1Taxi.passengers ∧
      (find_passenger c1Env c1Taxi).destinations = c1Taxi.destinations) ∨
     (∃ c : Cand,
       (sortCands (availablePassengers c1Env c1Taxi)).head? = some c ∧
       (find_passenger c1Env c1Taxi).passengers =
         c1Taxi.passengers ++ [{ c.1 with status := PStatus.in_taxi }] ∧
       (find_passenger c1Env c1Taxi).destinations =
         c1Taxi.destinations ++ [c.1.destination])) ∧
    (c1Taxi.passengers.length = c1Taxi.destinations.length →
      (transport_passengers c1Env c1Taxi).passengers.length =
        (transport_passengers c1Env c1Taxi).destinations.length) :=
  taxi_parallel_lists_inv c1Env c1Taxi (by decide)

/-- C9: onboard occupancy never exceeds one passenger: pickup runs only for
an empty taxi and attaches at most one passenger per tick, and transporting
never attaches, so a step preserves `len(passengers) ≤ 1` — the premium and
luxury capacities 2 and 3 are never reached. -/
theorem onboard_at_most_one (env : Env) (t : Taxi)
    (h : t.passengers.length ≤ 1) :
    (Taxi.tick env t).passengers.length ≤ 1 ∧
    (transport_passengers env t).passengers.length ≤ t.passengers.length ∧
    (find_passenger env t).passengers.length ≤ t.passengers.length + 1 := by
  have htr : (transport_passengers env t).passengers.length ≤
      t.passengers.length := by
    rcases transport_passengers_cases env t with ⟨hp, _, _, _⟩ |
      ⟨next, hp, _, _, _⟩
    · rw [hp]
    · rw [hp]
      have hle := dropOff_le next (t.passengers.map
        (fun (p : Passenger) => { p with position := next })) t.destinations
      rw [List.length_map] at hle
      exact hle
  have hfi : (find_passenger env t).passengers.length ≤
      t.passengers.length + 1 := by
    rcases find_passenger_lists env t with ⟨hp, _⟩ | ⟨c, _, hp, _⟩
    · rw [hp]; omega
    · rw [hp, List.length_append]
      simp only [List.length_cons, List.length_nil]
      omega
  refine ⟨?_, htr, hfi⟩
  unfold Taxi.tick
  by_cases hz : t.passengers.length = 0
  · rw [if_pos hz]
    omega
  · rw [if_neg hz]
    omega

/-- Witness for C9 at a concrete taxi with one onboard passenger. -/
theorem onboard_at_most_one_witness :
    (Taxi.tick c10Env c10Taxi).passengers.length ≤ 1 ∧
    (transport_passengers c10Env c10Taxi).passengers.length ≤
      c10Taxi.passengers.length ∧
    (find_passenger c10Env c10Taxi).passengers.length ≤
      c10Taxi.passengers.length + 1 :=
  onboard_at_most_one c10Env c10Taxi (by decide)

/-- Propositional reading of the strict sort-key comparison. -/
theorem keyLt_iff {a b : Cand} :
    keyLt a b = true ↔
      (b.2.2 < a.2.2 ∨ (a.2.2 = b.2.2 ∧ a.2.1 < b.2.1)) := by
  unfold keyLt
  simp [Bool.or_eq_true, Bool.and_eq_true, decide_eq_true_eq]

/-- Propositional reading of the non-strict sort-key comparison. -/
theorem keyLE_iff {a b : Cand} :
    keyLE a b = true ↔
      (b.2.2 < a.2.2 ∨ (a.2.2 = b.2.2 ∧ a.2.1 ≤ b.2.1)) := by
  unfold keyLE keyLt
  simp [Bool.or_eq_true, Bool.and_eq_true, decide_eq_true_eq]
  omega

/-- The key order is transitive. -/
theorem keyLE_trans (a b c : Cand) (hab : keyLE a b = true)
    (hbc : keyLE b c = true) : keyLE a c = true := by
  rw [keyLE_iff] at hab hbc ⊢
  omega

/-- Strictly smaller key implies the non-strict order. -/
theorem keyLE_of_keyLt {a b : Cand} (h : keyLt b a = true) :
    keyLE b a = true := by
  rw [keyLE_iff]
  rw [keyLt_iff] at h
  omega

/-- The order is total: a failed strict comparison flips. -/
theorem keyLE_of_not_keyLt {a b : Cand} (h : ¬ keyLt b a = true) :
    keyLE a b = true := by
  unfold keyLE
  simp [Bool.not_eq_true] at h
  simp [h]

/-- Inserting into a key-sorted list keeps it key-sorted. -/
theorem chain_insertCand {a : Cand} {l : List Cand}
    (h : List.Chain' (fun x y => keyLE x y = true) l) :
    List.Chain' (fun x y => keyLE x y = true) (insertCand a l) := by
  induction l with
  | nil => simp [insertCand]
  | cons b l ih =>
      unfold insertCand
      by_cases hba : keyLt b a = true
      · rw [if_pos hba]
        rw [List.chain'_cons']
        refine ⟨?_, ih h.tail⟩
        intro y hy
        cases l with
        | nil =>
            simp [insertCand] at hy
            subst hy
            exact keyLE_of_keyLt hba
        | cons c l2 =>
            unfold insertCand at hy
            by_cases hca : keyLt c a = true
            · rw [if_pos hca] at hy
              simp at hy
              subst hy
              exact (List.chain'_cons.1 h).1
            · rw [if_neg hca] at hy
              simp at hy
              subst hy
              exact keyLE_of_keyLt hba
      · rw [if_neg hba]
        rw [List.chain'_cons]
        exact ⟨keyLE_of_not_keyLt hba, h⟩

/-- The stable sort produces a list ordered by descending priority score and,
within equal scores, ascending distance. -/
theorem chain_sortCands (l : List Cand) :
    List.Chain' (fun x y => keyLE x y = true) (sortCands l) := by
  induction l with
  | nil => simp [sortCands]
  | cons a l ih => exact chain_insertCand ih

/-- Insertion is stable: filtering by any single key class, the inserted
element lands exactly in front of its class. -/
theorem filter_insertCand (p : Cand → Bool)
    (hp : ∀ x y : Cand, p x = true → p y = true → keyLt x y = false)
    (a : Cand) (l : List Cand) :
    (insertCand a l).filter p =
      if p a then a :: l.filter p else l.filter p := by
  induction l with
  | nil => simp [insertCand, List.filter_cons]
  | cons b l ih =>
      unfold insertCand
      by_cases hba : keyLt b a = true
      · rw [if_pos hba]
        rw [List.filter_cons, List.filter_cons]
        by_cases hpb : p b = true
        · by_cases hpa : p a = true
          · exact absurd (hp b a hpb hpa) (by simp [hba])
          · simp only [hpb, if_true, ih]
            rw [if_neg hpa, if_neg hpa]
        · simp only [Bool.not_eq_true] at hpb
          simp only [hpb, Bool.false_eq_true, if_false, ih]
      · rw [if_neg hba]
        rw [List.filter_cons]

/-- Stability of the whole sort: the elements of any one key class appear in
their original relative order (Python's stable `list.sort`). -/
theorem filter_sortCands (p : Cand → Bool)
    (hp : ∀ x y : Cand, p x = true → p y = true → keyLt x y = false) :
    ∀ l : List Cand, (sortCands l).filter p = l.filter p := by
  intro l
  induction l with
  | nil => rfl
  | cons a l ih =>
      show (insertCand a (sortCands l)).filter p = _
      rw [filter_insertCand p hp, ih, List.filter_cons]

/-- The head of the sorted candidate list is minimal in the key order. -/
theorem sortCands_head_min {l : List Cand} {h0 x : Cand}
    (hh : (sortCands l).head? = some h0) (hx : x ∈ l) :
    keyLE h0 x = true := by
  have hperm : x ∈ sortCands l := mem_sortCands.2 hx
  cases hs : sortCands l with
  | nil => rw [hs] at hperm; cases hperm
  | cons y ys =>
      rw [hs] at hh hperm
      simp only [List.head?_cons, Option.some.injEq] at hh
      subst hh
      rcases List.mem_cons.1 hperm with rfl | hmem
      · rw [keyLE_iff]; omega
      · have hchain := chain_sortCands l
        rw [hs] at hchain
        haveI : IsTrans Cand (fun x y => keyLE x y = true) := ⟨keyLE_trans⟩
        have hpw := List.chain'_iff_pairwise.1 hchain
        exact (List.pairwise_cons.1 hpw).1 x hmem

/-- C2: the passenger selection of an empty taxi ranks the waiting
candidates by priority score descending (emergency 3, vip 2, regular 1),
ties by ascending Manhattan distance, remaining ties stably in enumeration
(creation) order; in particular whenever an emergency candidate exists the
selected (head) candidate has emergency priority — so an emergency passenger
beats any vip/regular candidate at equal or greater distance. -/
theorem passenger_selection_ranking (env : Env) (t : Taxi) :
    List.Chain' (fun a b => keyLE a b = true)
      (sortCands (availablePassengers env t)) ∧
    (∀ s d : Nat,
      (sortCands (availablePassengers env t)).filter
          (fun c => c.2.2 == s && c.2.1 == d) =
        (availablePassengers env t).filter
          (fun c => c.2.2 == s && c.2.1 == d)) ∧
    (∀ c ∈ availablePassengers env t, c.1.priority = Priority.emergency →
      ∃ h0 : Cand,
        (sortCands (availablePassengers env t)).head? = some h0 ∧
        h0.1.priority = Priority.emergency) := by
  refine ⟨chain_sortCands _, ?_, ?_⟩
  · intro s d
    apply filter_sortCands
    intro x y hx hy
    rw [Bool.and_eq_true, beq_iff_eq, beq_iff_eq] at hx hy
    cases hk : keyLt x y
    · rfl
    · exfalso
      rw [keyLt_iff] at hk
      omega
  · intro c hc hpri
    have hscore : c.2.2 = 3 := by
      rw [(mem_availablePassengers hc).1, hpri]; rfl
    obtain ⟨h0, hh⟩ :
        ∃ h0, (sortCands (availablePassengers env t)).head? = some h0 := by
      cases hs : sortCands (availablePassengers env t) with
      | nil =>
          exfalso
          have hmem : c ∈ sortCands (availablePassengers env t) :=
            mem_sortCands.2 hc
          rw [hs] at hmem
          cases hmem
      | cons y ys => exact ⟨y, rfl⟩
    refine ⟨h0, hh, ?_⟩
    have hle := sortCands_head_min hh hc
    have h0mem : h0 ∈ availablePassengers env t :=
      mem_sortCands.1 (List.mem_of_mem_head? hh)
    have h0score : h0.2.2 = priorityScore h0.1.priority :=
      (mem_availablePassengers h0mem).1
    rw [keyLE_iff, hscore, h0score] at hle
    have hbound : priorityScore h0.1.priority ≤ 3 := by
      cases h0.1.priority <;> simp [priorityScore]
    have hsc3 : priorityScore h0.1.priority = 3 := by omega
    cases hp0 : h0.1.priority
    · rw [hp0] at hsc3; simp [priorityScore] at hsc3
    · rw [hp0] at hsc3; simp [priorityScore] at hsc3
    · rfl

/-- Environment for the C2 witness: a nearby regular passenger and a
farther emergency passenger. -/
def c2Env : Env :=
  { g := create_road_network 3 3,
    agents := [Passenger.init 0 (0, 0) (2, 2) Priority.regular,
               Passenger.init 1 (2, 2) (0, 0) Priority.emergency],
    lights := fun _ => [], nbhd := fun _ => [], pick := 0 }

/-- Taxi for the C2 witness: an empty economy taxi at the origin. -/
def c2Taxi : Taxi := Taxi.init 0 (0, 0) TaxiType.economy

/-- Witness for C2: with a regular candidate at distance 0 and an emergency
candidate at distance 4, the selected head candidate is the emergency one. -/
theorem passenger_selection_ranking_witness :
    ∃ h0 : Cand,
      (sortCands (availablePassengers c2Env c2Taxi)).head? = some h0 ∧
      h0.1.priority = Priority.emergency :=
  (passenger_selection_ranking c2Env c2Taxi).2.2
    (Passenger.init 1 (2, 2) (0, 0) Priority.emergency, 4, 3)
    (by decide) rfl

/-- Bounded reachability is monotone in the bound (one step). -/
theorem reachIn_succ {g : Graph} {t s : Pos} {n : Nat}
    (h : reachIn g t n s = true) : reachIn g t (n + 1) s = true := by
  induction n generalizing s with
  | zero =>
      unfold reachIn at h ⊢
      simp only [Bool.or_eq_true]
      exact Or.inl h
  | succ m ih =>
      unfold reachIn at h ⊢
      rw [Bool.or_eq_true] at h ⊢
      rcases h with h | h
      · exact Or.inl h
      · right
        rw [List.any_eq_true] at h ⊢
        obtain ⟨u, hu, hr⟩ := h
        exact ⟨u, hu, ih hr⟩

/-- Bounded reachability is monotone in the bound. -/
theorem reachIn_mono {g : Graph} {t s : Pos} {n m : Nat} (hnm : n ≤ m)
    (h : reachIn g t n s = true) : reachIn g t m s = true := by
  induction hnm with
  | refl => exact h
  | step _ ih => exact reachIn_succ ih

/-- The walk extracted by `buildPath` from a reachability certificate is a
genuine walk from `s` to `t` of at most `n` edges. -/
theorem buildPath_spec {g : Graph} {t : Pos} :
    ∀ (n : Nat) (s : Pos), reachIn g t n s = true →
      IsPath g s t (buildPath g t n s) ∧
      (buildPath g t n s).length ≤ n + 1 := by
  intro n
  induction n with
  | zero =>
      intro s h
      unfold reachIn at h
      rw [beq_iff_eq] at h
      subst h
      exact ⟨⟨rfl, rfl, List.chain'_singleton _⟩, le_refl _⟩
  | succ m ih =>
      intro s h
      unfold buildPath
      by_cases hst : (s == t) = true
      · rw [if_pos hst]
        rw [beq_iff_eq] at hst
        subst hst
        exact ⟨⟨rfl, rfl, List.chain'_singleton _⟩, by simp⟩
      · rw [if_neg hst]
        unfold reachIn at h
        rw [Bool.or_eq_true] at h
        rcases h with h | h
        · exact absurd h hst
        · rw [List.any_eq_true] at h
          obtain ⟨u, hu, hr⟩ := h
          have hsome : ((neighborsOf g s).find?
              (fun u => reachIn g t m u)).isSome = true := by
            rw [List.find?_isSome]
            exact ⟨u, hu, hr⟩
          obtain ⟨v, hv⟩ := Option.isSome_iff_exists.1 hsome
          rw [hv]
          have hrv : reachIn g t m v = true := List.find?_some hv
          have hvmem : v ∈ neighborsOf g s := List.mem_of_find?_eq_some hv
          have hadj : g.adj s v = true := (List.mem_filter.1 hvmem).2
          obtain ⟨⟨hhead, hlast, hchain⟩, hlen⟩ := ih v hrv
          cases hb : buildPath g t m v with
          | nil => rw [hb] at hhead; cases hhead
          | cons w ws =>
              rw [hb] at hhead hlast hchain hlen
              simp only [List.head?_cons, Option.some.injEq] at hhead
              subst hhead
              constructor
              · refine ⟨?_, ?_, ?_⟩
                · show (s :: buildPath g t m w).head? = some s
                  rfl
                · show (s :: buildPath g t m w).getLast? = some t
                  rw [hb, List.getLast?_cons_cons]
                  exact hlast
                · show List.Chain' (fun a b => g.adj a b = true)
                    (s :: buildPath g t m w)
                  rw [hb, List.chain'_cons]
                  exact ⟨hadj, hchain⟩
              · show (s :: buildPath g t m w).length ≤ m + 1 + 1
                rw [hb]
                simp only [List.length_cons] at hlen ⊢
                omega

/-- Conversely, every walk from `s` to `t` yields a reachability certificate
at its edge count (closure puts every neighbour back in the node list). -/
theorem isPath_reachIn {g : Graph} (hclosed : g.Closed) :
    ∀ (p : List Pos) (s t : Pos), IsPath g s t p →
      reachIn g t (p.length - 1) s = true := by
  intro p
  induction p with
  | nil => intro s t h; cases h.1
  | cons a q ih =>
      intro s t h
      obtain ⟨hhead, hlast, hchain⟩ := h
      simp only [List.head?_cons, Option.some.injEq] at hhead
      subst hhead
      cases q with
      | nil =>
          have ht : t = a := by
            simpa using hlast.symm
          subst ht
          unfold reachIn
          simp
      | cons b q2 =>
          have hadj : g.adj a b = true := (List.chain'_cons.1 hchain).1
          have hsub : IsPath g b t (b :: q2) := by
            refine ⟨rfl, ?_, (List.chain'_cons.1 hchain).2⟩
            have h2 : (a :: b :: q2).getLast? = (b :: q2).getLast? :=
              List.getLast?_cons_cons
            rw [← h2]
            exact hlast
          have hr := ih b t hsub
          show reachIn g t (q2.length + 1) a = true
          unfold reachIn
          rw [Bool.or_eq_true]
          right
          rw [List.any_eq_true]
          refine ⟨b, ?_, ?_⟩
          · unfold neighborsOf
            rw [List.mem_filter]
            exact ⟨hclosed a b hadj, hadj⟩
          · exact hr

/-- A successful upward scan returns the least index satisfying the
predicate within its window. -/
theorem upSearch_some {p : Nat → Bool} :
    ∀ {fuel cur n : Nat}, upSearch p fuel cur = some n →
      p n = true ∧ cur ≤ n ∧ ∀ m, cur ≤ m → m < n → p m = false := by
  intro fuel
  induction fuel with
  | zero => intro cur n h; cases h
  | succ f ih =>
      intro cur n h
      unfold upSearch at h
      by_cases hc : p cur = true
      · rw [if_pos hc] at h
        cases h
        exact ⟨hc, le_refl _, fun m h1 h2 => absurd h1 (by omega)⟩
      · rw [if_neg hc] at h
        obtain ⟨hp, hle, hmin⟩ := ih h
        simp only [Bool.not_eq_true] at hc
        refine ⟨hp, by omega, ?_⟩
        intro m h1 h2
        by_cases hm : m = cur
        · subst hm; exact hc
        · exact hmin m (by omega) h2

/-- A failed upward scan refutes the predicate on its whole window. -/
theorem upSearch_none {p : Nat → Bool} :
    ∀ {fuel cur : Nat}, upSearch p fuel cur = none →
      ∀ m, cur ≤ m → m < cur + fuel → p m = false := by
  intro fuel
  induction fuel with
  | zero => intro cur _ m h1 h2; omega
  | succ f ih =>
      intro cur h m h1 h2
      unfold upSearch at h
      by_cases hc : p cur = true
      · rw [if_pos hc] at h; cases h
      · rw [if_neg hc] at h
        simp only [Bool.not_eq_true] at hc
        by_cases hm : m = cur
        · subst hm; exact hc
        · exact ih h m (by omega) (by omega)

/-- The upward scan succeeds whenever some index in its window satisfies the
predicate. -/
theorem upSearch_isSome (p : Nat → Bool) :
    ∀ {fuel cur k : Nat}, p k = true → cur ≤ k → k < cur + fuel →
      (upSearch p fuel cur).isSome = true := by
  intro fuel
  induction fuel with
  | zero => intro cur k _ h1 h2; omega
  | succ f ih =>
      intro cur k hk h1 h2
      unfold upSearch
      by_cases hc : p cur = true
      · rw [if_pos hc]; rfl
      · rw [if_neg hc]
        have hne : cur ≠ k := fun he => hc (he ▸ hk)
        exact ih hk (by omega) (by omega)

/-- Any list with a duplicate splits around the repeated element. -/
theorem exists_dup_split {α : Type} [DecidableEq α] :
    ∀ (l : List α), ¬ l.Nodup →
      ∃ (l1 : List α) (x : α) (l2 l3 : List α),
        l = l1 ++ x :: l2 ++ x :: l3 := by
  intro l
  induction l with
  | nil => intro h; exact absurd List.nodup_nil h
  | cons a l ih =>
      intro h
      by_cases ha : a ∈ l
      · obtain ⟨s, t2, hst⟩ := List.append_of_mem ha
        exact ⟨[], a, s, t2, by rw [hst]; simp⟩
      · have hnl : ¬ l.Nodup := by
          intro hn
          exact h (List.nodup_cons.2 ⟨ha, hn⟩)
        obtain ⟨l1, x, l2, l3, hl⟩ := ih hnl
        exact ⟨a :: l1, x, l2, l3, by rw [hl]; rfl⟩

/-- Cutting the loop between two occurrences of the same element preserves
the chain property. -/
theorem chain'_splice {α : Type} {R : α → α → Prop} {l1 l2 l3 : List α}
    {x : α} (h : List.Chain' R (l1 ++ x :: l2 ++ x :: l3)) :
    List.Chain' R (l1 ++ x :: l3) := by
  rw [List.chain'_append] at h
  obtain ⟨h1, h2, h12⟩ := h
  rw [List.chain'_append] at h1
  obtain ⟨h11, _, hlink⟩ := h1
  rw [List.chain'_append]
  refine ⟨h11, h2, ?_⟩
  intro a ha y hy
  simp only [List.head?_cons, Option.mem_def, Option.some.injEq] at hy
  subst hy
  exact hlink a ha x (by simp)

/-- The head survives the splice. -/
theorem head?_splice {α : Type} (l1 : List α) (x : α) (l2 l3 : List α) :
    (l1 ++ x :: l3).head? = (l1 ++ x :: l2 ++ x :: l3).head? := by
  cases l1 <;> simp

/-- The last element of a list ending in `x :: l3` is that of `x :: l3`. -/
theorem getLast?_append_cons_ne {α : Type} (A : List α) (x : α)
    (l3 : List α) :
    (A ++ x :: l3).getLast? = (x :: l3).getLast? :=
  List.getLast?_append_of_ne_nil A (by simp)

/-- Every chain shortens to a duplicate-free chain with the same endpoints
(the classic path-shortening argument, by cutting loops). -/
theorem chain'_shorten_nodup {R : Pos → Pos → Prop} (p : List Pos)
    (hc : List.Chain' R p) :
    ∃ q : List Pos, q.Nodup ∧ List.Chain' R q ∧
      q.head? = p.head? ∧ q.getLast? = p.getLast? ∧ q.length ≤ p.length := by
  by_cases hnd : p.Nodup
  · exact ⟨p, hnd, hc, rfl, rfl, le_refl _⟩
  · obtain ⟨l1, x, l2, l3, rfl⟩ := exists_dup_split p hnd
    have hc' := chain'_splice hc
    have hlen : (l1 ++ x :: l3).length <
        (l1 ++ x :: l2 ++ x :: l3).length := by
      simp only [List.length_append, List.length_cons]
      omega
    obtain ⟨q, h1, h2, h3, h4, h5⟩ := chain'_shorten_nodup (l1 ++ x :: l3) hc'
    refine ⟨q, h1, h2, ?_, ?_, ?_⟩
    · rw [h3]
      exact head?_splice l1 x l2 l3
    · rw [h4, getLast?_append_cons_ne l1 x l3,
        getLast?_append_cons_ne (l1 ++ x :: l2) x l3]
    · omega
termination_by p.length

/-- In a closed graph, every vertex of a chain starting at a node is a
node. -/
theorem path_vertices_mem {g : Graph} (hclosed : g.Closed) :
    ∀ (p : List Pos) (s : Pos),
      List.Chain' (fun a b => g.adj a b = true) p →
      p.head? = some s → s ∈ g.nodes → ∀ v ∈ p, v ∈ g.nodes := by
  intro p
  induction p with
  | nil => intro s _ _ _ v hv; cases hv
  | cons a q ih =>
      intro s hchain hhead hs v hv
      simp only [List.head?_cons, Option.some.injEq] at hhead
      subst hhead
      rcases List.mem_cons.1 hv with rfl | hv2
      · exact hs
      · cases q with
        | nil => cases hv2
        | cons b q2 =>
            have hadj := (List.chain'_cons.1 hchain).1
            exact ih b (List.chain'_cons.1 hchain).2 rfl
              (hclosed _ _ hadj) v hv2

/-- A duplicate-free list over a finite node list is no longer than it. -/
theorem nodup_length_le_nodes {p nodes : List Pos}
    (hnd : p.Nodup) (hsub : ∀ v ∈ p, v ∈ nodes) :
    p.length ≤ nodes.length := by
  have h1 : p.toFinset.card = p.length := List.toFinset_card_of_nodup hnd
  have h2 : p.toFinset ⊆ nodes.toFinset := by
    intro v hv
    rw [List.mem_toFinset] at hv ⊢
    exact hsub v hv
  have h3 := Finset.card_le_card h2
  have h4 := List.toFinset_card_le nodes
  omega

/-- Completeness of the bounded search: whenever any walk from `s` to `t`
exists, the search window `[0, |nodes|]` contains a witness, because a
shortest walk is duplicate-free and so has fewer than `|nodes|` edges. -/
theorem reachable_shortestDistance {g : Graph} (hclosed : g.Closed)
    {s t : Pos} (hs : s ∈ g.nodes) {q : List Pos} (hq : IsPath g s t q) :
    ∃ n, shortestDistance g s t = some n := by
  classical
  have hr : reachIn g t (q.length - 1) s = true :=
    isPath_reachIn hclosed q s t hq
  have hex : ∃ n, reachIn g t n s = true := ⟨_, hr⟩
  have hn0 : reachIn g t (Nat.find hex) s = true := Nat.find_spec hex
  obtain ⟨⟨hh, hl, hc⟩, _⟩ := buildPath_spec (Nat.find hex) s hn0
  obtain ⟨q2, hnd, hc2, hh2, hl2, _⟩ := chain'_shorten_nodup _ hc
  have hh2' : q2.head? = some s := by rw [hh2, hh]
  have hl2' : q2.getLast? = some t := by rw [hl2, hl]
  have hr2 : reachIn g t (q2.length - 1) s = true :=
    isPath_reachIn hclosed q2 s t ⟨hh2', hl2', hc2⟩
  have hmin2 : Nat.find hex ≤ q2.length - 1 := Nat.find_min' hex hr2
  have hmem := path_vertices_mem hclosed q2 s hc2 hh2' hs
  have hbound := nodup_length_le_nodes hnd hmem
  have hq2len : 1 ≤ q2.length := by
    cases hcq : q2 with
    | nil => rw [hcq] at hh2'; cases hh2'
    | cons _ _ => simp
  have hsearch := upSearch_isSome (fun n => reachIn g t n s) hn0
    (Nat.zero_le _) (show Nat.find hex < 0 + (g.nodes.length + 1) by omega)
  unfold shortestDistance
  exact Option.isSome_iff_exists.1 hsearch

/-- When `_find_path` returns a non-empty path, that path came from a
shortest-distance certificate. -/
theorem find_path_cons {g : Graph} {s t next : Pos} {rest : List Pos}
    (hs : s ∈ g.nodes) (ht : t ∈ g.nodes)
    (hfp : find_path g s t = next :: rest) :
    ∃ n, reachIn g t n s = true ∧ (∀ m, m < n → reachIn g t m s = false) ∧
      buildPath g t n s = s :: next :: rest := by
  unfold find_path at hfp
  rw [if_pos ⟨hs, ht⟩] at hfp
  cases hnx : nx_shortest_path g s t with
  | none =>
      simp only [hnx] at hfp
      cases hfp
  | some p =>
      simp only [hnx] at hfp
      unfold nx_shortest_path at hnx
      cases hsd : shortestDistance g s t with
      | none => rw [hsd] at hnx; cases hnx
      | some n =>
          rw [hsd] at hnx
          injection hnx with hnx
          unfold shortestDistance at hsd
          obtain ⟨hr, _, hmin⟩ := upSearch_some hsd
          refine ⟨n, hr, ?_, ?_⟩
          · intro m hm
            exact hmin m (Nat.zero_le _) hm
          · subst hnx
            by_cases hlen : 1 < (buildPath g t n s).length
            · rw [if_pos hlen] at hfp
              obtain ⟨⟨hh, _, _⟩, _⟩ := buildPath_spec n s hr
              cases hb : buildPath g t n s with
              | nil => rw [hb] at hh; cases hh
              | cons w ws =>
                  rw [hb] at hh hfp
                  simp only [List.head?_cons, Option.some.injEq] at hh
                  subst hh
                  simp only [List.drop_succ_cons, List.drop_zero] at hfp
                  rw [hfp]
            · rw [if_neg hlen] at hfp
              cases hfp

/-- C7: for nodes `start` and `end` of the road network, `_find_path`
returns the empty list when `start = end` and when `end` is unreachable (no
exception escapes: the embedding is total, the `NetworkXNoPath` branch is
the `none` case); a non-empty result, prefixed with `start`, is a genuine
path of minimum length (excluding `start` itself from the returned
sequence); a path is returned whenever one exists; and the taxi treats an
empty path as a normal outcome — it does not move via the path that
tick, in either behavior. -/
theorem find_path_spec (g : Graph) (s t : Pos) (hclosed : g.Closed)
    (hs : s ∈ g.nodes) (ht : t ∈ g.nodes) :
    (s = t → find_path g s t = []) ∧
    ((¬ ∃ p : List Pos, IsPath g s t p) → find_path g s t = []) ∧
    (∀ (next : Pos) (rest : List Pos), find_path g s t = next :: rest →
      IsPath g s t (s :: next :: rest) ∧
      ∀ q : List Pos, IsPath g s t q →
        (s :: next :: rest).length ≤ q.length) ∧
    ((∃ p : List Pos, IsPath g s t p) → s ≠ t → find_path g s t ≠ []) ∧
    (∀ (env : Env) (tx : Taxi), tx.path = [] →
      plan_route env.g tx.position tx.destinations tx.path = [] →
      (transport_passengers env tx).position = tx.position) ∧
    (∀ (env : Env) (tx : Taxi) (c : Cand),
      (sortCands (availablePassengers env tx)).head? = some c →
      find_path env.g tx.position c.1.position = [] →
      (find_passenger env tx).position = tx.position) := by
  refine ⟨?_, ?_, ?_, ?_, ?_, ?_⟩
  · intro heq
    subst heq
    have h0 : reachIn g s 0 s = true := by
      unfold reachIn; simp
    have hsd : shortestDistance g s s = some 0 := by
      unfold shortestDistance upSearch
      simp [h0]
    unfold find_path
    rw [if_pos ⟨hs, ht⟩]
    simp only [nx_shortest_path, hsd]
    simp [buildPath]
  · intro hnp
    cases hsd : shortestDistance g s t with
    | none =>
        unfold find_path
        rw [if_pos ⟨hs, ht⟩]
        simp only [nx_shortest_path, hsd]
    | some n =>
        exfalso
        unfold shortestDistance at hsd
        obtain ⟨hr, _, _⟩ := upSearch_some hsd
        obtain ⟨hp, _⟩ := buildPath_spec n s hr
        exact hnp ⟨_, hp⟩
  · intro next rest hfp
    obtain ⟨n, hr, hmin, hbp⟩ := find_path_cons hs ht hfp
    obtain ⟨hp, hlenb⟩ := buildPath_spec n s hr
    rw [hbp] at hp hlenb
    refine ⟨hp, ?_⟩
    intro q hq
    have hrq := isPath_reachIn hclosed q s t hq
    have hq1 : 1 ≤ q.length := by
      cases hcq : q with
      | nil => rw [hcq] at hq; cases hq.1
      | cons _ _ => simp
    have hnq : n ≤ q.length - 1 := by
      by_contra hlt
      push_neg at hlt
      have hf := hmin _ hlt
      rw [hf] at hrq
      cases hrq
    simp only [List.length_cons] at hlenb ⊢
    omega
  · rintro ⟨q, hq⟩ hneq
    obtain ⟨n, hsd⟩ := reachable_shortestDistance hclosed hs hq
    have hsd' := hsd
    unfold shortestDistance at hsd'
    obtain ⟨hr, _, _⟩ := upSearch_some hsd'
    obtain ⟨hp, _⟩ := buildPath_spec n s hr
    unfold find_path
    rw [if_pos ⟨hs, ht⟩]
    simp only [nx_shortest_path, hsd]
    cases hb : buildPath g t n s with
    | nil => rw [hb] at hp; cases hp.1
    | cons w ws =>
        cases ws with
        | nil =>
            exfalso
            rw [hb] at hp
            obtain ⟨h1, h2, _⟩ := hp
            simp only [List.head?_cons, Option.some.injEq] at h1
            have h2' : w = t := by simpa using h2
            exact hneq (by rw [← h1]; exact h2')
        | cons w2 ws2 =>
            simp
  · intro env tx hpath hplan
    unfold transport_passengers
    by_cases hif : tx.path = [] ∧ tx.destinations ≠ []
    · rw [if_pos hif]
      simp only []
      split
      · rfl
      · rename_i next rest heq
        exfalso
        have h2 : (next :: rest : List Pos) = [] := by
          rw [← heq]
          exact hplan
        cases h2
    · rw [if_neg hif]
      simp only []
      split
      · rfl
      · rename_i next rest heq
        exfalso
        rw [hpath] at heq
        cases heq
  · intro env tx c hsel hfp
    simp only [find_passenger, hsel, hfp]

/-- Every in-range cell is listed among the lattice nodes. -/
theorem mem_create_road_network {w h : Int} {v : Pos}
    (hv : gridMem w h v = true) :
    v ∈ (create_road_network w h).nodes := by
  obtain ⟨a, b⟩ := v
  unfold gridMem at hv
  simp only [Bool.and_eq_true, decide_eq_true_eq] at hv
  obtain ⟨⟨⟨h1, h2⟩, h3⟩, h4⟩ := hv
  have hmem : ((a.toNat : Int), (b.toNat : Int)) ∈
      (create_road_network w h).nodes := by
    have hx : a.toNat ∈ List.range w.toNat := List.mem_range.2 (by omega)
    have hy : b.toNat ∈ List.range h.toNat := List.mem_range.2 (by omega)
    show (Int.ofNat a.toNat, Int.ofNat b.toNat) ∈ (List.range w.toNat).flatMap
      (fun x => (List.range h.toNat).map (fun y => (Int.ofNat x, Int.ofNat y)))
    rw [List.mem_flatMap]
    refine ⟨a.toNat, hx, ?_⟩
    rw [List.mem_map]
    exact ⟨b.toNat, hy, rfl⟩
  rw [Int.toNat_of_nonneg h1, Int.toNat_of_nonneg h3] at hmem
  exact hmem

/-- The lattice road network is closed: adjacency only relates grid
cells. -/
theorem create_road_network_closed (w h : Int) :
    (create_road_network w h).Closed := by
  intro u v hadj
  simp only [create_road_network, Bool.and_eq_true] at hadj
  exact mem_create_road_network hadj.1.2

/-- Witness for C7 on the 2×2 road network from `(0,0)` to `(1,1)`. -/
theorem find_path_spec_witness :
    (((0 : Int), (0 : Int)) = ((1 : Int), (1 : Int)) →
      find_path (create_road_network 2 2) (0, 0) (1, 1) = []) ∧
    ((¬ ∃ p : List Pos, IsPath (create_road_network 2 2) (0, 0) (1, 1) p) →
      find_path (create_road_network 2 2) (0, 0) (1, 1) = []) ∧
    (∀ (next : Pos) (rest : List Pos),
      find_path (create_road_network 2 2) (0, 0) (1, 1) = next :: rest →
      IsPath (create_road_network 2 2) (0, 0) (1, 1)
        ((0, 0) :: next :: rest) ∧
      ∀ q : List Pos, IsPath (create_road_network 2 2) (0, 0) (1, 1) q →
        ((0, 0) :: next :: rest).length ≤ q.length) ∧
    ((∃ p : List Pos, IsPath (create_road_network 2 2) (0, 0) (1, 1) p) →
      ((0 : Int), (0 : Int)) ≠ ((1 : Int), (1 : Int)) →
      find_path (create_road_network 2 2) (0, 0) (1, 1) ≠ []) ∧
    (∀ (env : Env) (tx : Taxi), tx.path = [] →
      plan_route env.g tx.position tx.destinations tx.path = [] →
      (transport_passengers env tx).position = tx.position) ∧
    (∀ (env : Env) (tx : Taxi) (c : Cand),
      (sortCands (availablePassengers env tx)).head? = some c →
      find_path env.g tx.position c.1.position = [] →
      (find_passenger env tx).position = tx.position) :=
  find_path_spec (create_road_network 2 2) (0, 0) (1, 1)
    (create_road_network_closed 2 2) (by decide) (by decide)

end TaxiSim
